import Mathlib

/-!
Verification development for the macro-calendar generator
(scripts/generate_calendar.py).

The script is shallowly embedded: Python strings become `List Char`
(written `Str`), bytes become `List Nat`, timezone-aware datetimes become a
structure carrying the wall-clock fields together with the UTC offset in
minutes, and fallible code returns `Except Str`.  Machine integers do not
occur in the script (Python has arbitrary-precision integers), so `Nat`
and `Int` are used directly; the 32-bit arithmetic inside SHA-1 is made
explicit with `% 2 ^ 32`.
-/

set_option maxRecDepth 10000

namespace MacroCal

/-- Python `str` is modelled as a list of unicode characters. -/
abbrev Str := List Char

/-- Shorthand turning a Lean string literal into the `Str` model. -/
def cs (s : String) : Str := s.data

/-! ## Model of `_fold_ics_line` (RFC5545 line folding, lines 76-85)

```python
def _fold_ics_line(line: str, limit: int = 75) -> str:
    if len(line) <= limit:
        return line
    out: list[str] = []
    while len(line) > limit:
        out.append(line[:limit])
        line = " " + line[limit:]
    out.append(line)
    return "\r\n".join(out)
```

`foldChunks` returns the list `out` of physical lines (every call site uses
the default `limit = 75`); `_fold_ics_line` itself is `foldIcsLine`,
the `"\r\n".join`. -/

def foldChunksAux : Nat → Str → List Str
  | 0, line => [line]
  | fuel + 1, line =>
    if line.length ≤ 75 then [line]
    else line.take 75 :: foldChunksAux fuel (' ' :: line.drop 75)

/-- The `while` loop runs `foldChunksAux` with ample fuel: every
iteration shortens the line by 74 characters, so `line.length` steps
always suffice. -/
def foldChunks (line : Str) : List Str := foldChunksAux line.length line

/-- Python `sep.join(parts)`. -/
def joinList (sep : Str) : List Str → Str
  | [] => []
  | [x] => x
  | x :: y :: xs => x ++ sep ++ joinList sep (y :: xs)

def foldIcsLine (line : Str) : Str := joinList (cs "\r\n") (foldChunks line)

/-- Unfolding in the sense of RFC5545: delete every CRLF-plus-one-space
sequence, scanning left to right. -/
def removeFolds : Str → Str
  | [] => []
  | [c] => [c]
  | [c1, c2] => [c1, c2]
  | c1 :: c2 :: c3 :: rest =>
    if c1 = '\r' ∧ c2 = '\n' ∧ c3 = ' ' then removeFolds rest
    else c1 :: removeFolds (c2 :: c3 :: rest)

/-- UTF-8 encoding of one character, for counting octets. -/
def utf8Bytes (c : Char) : List Nat :=
  let n := c.toNat
  if n < 0x80 then [n]
  else if n < 0x800 then
    [0xC0 ||| (n >>> 6), 0x80 ||| (n &&& 63)]
  else if n < 0x10000 then
    [0xE0 ||| (n >>> 12), 0x80 ||| ((n >>> 6) &&& 63), 0x80 ||| (n &&& 63)]
  else
    [0xF0 ||| (n >>> 18), 0x80 ||| ((n >>> 12) &&& 63),
     0x80 ||| ((n >>> 6) &&& 63), 0x80 ||| (n &&& 63)]

/-- Number of octets of the UTF-8 encoding of a string.  Python's `len`
(used by `_fold_ics_line`) counts characters instead. -/
def utf8ByteLen (s : Str) : Nat := (s.flatMap utf8Bytes).length

/-! ## Model of `_escape_ics_text` (lines 98-100)

```python
def _escape_ics_text(text: str) -> str:
    return text.replace("\r\n", "\n").replace("\r", "\n").replace("\n", "\\n")
```

`replaceStr` is Python `str.replace`: scan left to right, replacing
non-overlapping occurrences (all patterns used here are non-empty). -/

/-- Model of `leadsWith pat s` is true when `pat` is an initial segment of `s`. -/
def leadsWith : Str → Str → Bool
  | [], _ => true
  | _ :: _, [] => false
  | p :: ps, c :: rest => p == c && leadsWith ps rest

def replaceStrAux (pat rep : Str) : Nat → Str → Str
  | 0, s => s
  | _ + 1, [] => []
  | fuel + 1, c :: rest =>
    if pat ≠ [] ∧ leadsWith pat (c :: rest) = true then
      rep ++ replaceStrAux pat rep fuel (List.drop pat.length (c :: rest))
    else
      c :: replaceStrAux pat rep fuel rest

/-- Sufficient fuel: each step consumes at least one character. -/
def replaceStr (pat rep : Str) (s : Str) : Str :=
  replaceStrAux pat rep s.length s

def escapeIcsText (text : Str) : Str :=
  replaceStr (cs "\n") (cs "\\n")
    (replaceStr (cs "\r") (cs "\n")
      (replaceStr (cs "\r\n") (cs "\n") text))

/-! ## Datetimes and timezones

Python's `datetime`/`zoneinfo` are modelled with explicit civil-calendar
arithmetic (Gregorian, proleptic, years ≥ 1).  `civilDays` counts days
since 0000-03-01; `civilFromDays` is its inverse.  A timezone-aware
datetime carries its wall-clock fields plus the UTC offset in minutes;
ordering and equality of Python aware datetimes compare the absolute
instant (`toInstant`).

`America/New_York` is modelled by the post-2007 US DST rule (EDT, offset
UTC-4, from the second Sunday of March 02:00 until the first Sunday of
November 02:00 local; EST, UTC-5, otherwise), which is what `zoneinfo`
applies to every date this script handles; the wall times used by the
script (08:30 and 14:00) are never inside the ambiguous or skipped hour.
`Asia/Taipei` is fixed UTC+8 with no DST. -/

def isLeap (y : Nat) : Bool := (y % 4 == 0 && y % 100 != 0) || y % 400 == 0

def daysInMonth (y m : Nat) : Nat :=
  if m = 2 then (if isLeap y then 29 else 28)
  else if m = 4 ∨ m = 6 ∨ m = 9 ∨ m = 11 then 30
  else 31

/-- Days since 0000-03-01 of the Gregorian date y-m-d (valid for y ≥ 1). -/
def civilDays (y m d : Nat) : Nat :=
  let y2 := if m ≤ 2 then y - 1 else y
  let era := y2 / 400
  let yoe := y2 % 400
  let mp := if 2 < m then m - 3 else m + 9
  let doy := (153 * mp + 2) / 5 + d - 1
  let doe := yoe * 365 + yoe / 4 - yoe / 100 + doy
  era * 146097 + doe

/-- Inverse of `civilDays`: day count to (year, month, day). -/
def civilFromDays (z : Nat) : Nat × Nat × Nat :=
  let era := z / 146097
  let doe := z % 146097
  let yoe := (doe - doe / 1460 + doe / 36524 - doe / 146096) / 365
  let y := yoe + era * 400
  let doy := doe - (365 * yoe + yoe / 4 - yoe / 100)
  let mp := (5 * doy + 2) / 153
  let d := doy - (153 * mp + 2) / 5 + 1
  let m := if mp < 10 then mp + 3 else mp - 9
  (if m ≤ 2 then y + 1 else y, m, d)

/-- Day of week, Sunday = 0. -/
def weekdaySun0 (z : Nat) : Nat := (z + 3) % 7

def secondSundayMarch (y : Nat) : Nat :=
  8 + (7 - weekdaySun0 (civilDays y 3 8)) % 7

def firstSundayNov (y : Nat) : Nat :=
  1 + (7 - weekdaySun0 (civilDays y 11 1)) % 7

/-- Minutes WEST of UTC of America/New_York at the given local wall time
(so UTC = local + this). -/
def nyWestOffsetMin (y m d h mi : Nat) : Nat :=
  let w := civilDays y m d * 1440 + h * 60 + mi
  let dstStart := civilDays y 3 (secondSundayMarch y) * 1440 + 120
  let dstEnd := civilDays y 11 (firstSundayNov y) * 1440 + 120
  if dstStart ≤ w ∧ w < dstEnd then 240 else 300

/-- A timezone-aware Python datetime: wall-clock fields in its own zone
plus the zone's UTC offset in minutes (east positive). -/
structure DateTime where
  year : Nat
  month : Nat
  day : Nat
  hour : Nat
  minute : Nat
  second : Nat
  offsetMinutes : Int
deriving DecidableEq, Repr

/-- The absolute instant (seconds, relative to 0000-03-01 00:00 UTC);
Python compares, hashes and deduplicates aware datetimes by this value. -/
def toInstant (dt : DateTime) : Int :=
  ((civilDays dt.year dt.month dt.day * 1440 + dt.hour * 60 + dt.minute : Nat) : Int) * 60
    + dt.second - dt.offsetMinutes * 60

def ofWallMinutes (w : Nat) (sec : Nat) (off : Int) : DateTime :=
  let ymd := civilFromDays (w / 1440)
  ⟨ymd.1, ymd.2.1, ymd.2.2, (w % 1440) / 60, (w % 1440) % 60, sec, off⟩

/-- Model of `datetime(y,m,d,h,mi,tzinfo=TZ_NY).astimezone(TZ_TAIPEI)`. -/
def nyToTaipei (y m d h mi : Nat) : DateTime :=
  let wallNY := civilDays y m d * 1440 + h * 60 + mi
  let utc := wallNY + nyWestOffsetMin y m d h mi
  ofWallMinutes (utc + 480) 0 480

/-- Model of `dt.astimezone(TZ_TAIPEI)` for an aware datetime with any offset. -/
def astimezoneTaipei (dt : DateTime) : DateTime :=
  let wall : Int :=
    ((civilDays dt.year dt.month dt.day * 1440 + dt.hour * 60 + dt.minute : Nat) : Int)
  ofWallMinutes (wall - dt.offsetMinutes + 480).toNat dt.second 480

/-- Model of `dt + timedelta(minutes=k)` (wall-clock addition; Taipei has no DST,
so this agrees with instant addition at every call site). -/
def addMinutes (dt : DateTime) (k : Nat) : DateTime :=
  ofWallMinutes (civilDays dt.year dt.month dt.day * 1440 + dt.hour * 60 + dt.minute + k)
    dt.second dt.offsetMinutes

/-! ### Decimal rendering -/

def digitChar (n : Nat) : Char := Char.ofNat (48 + n)

def natDigitsAux : Nat → Nat → Str
  | 0, n => [digitChar n]
  | fuel + 1, n =>
    if n < 10 then [digitChar n]
    else natDigitsAux fuel (n / 10) ++ [digitChar (n % 10)]

/-- Model of `str(n)` for a natural number (fuel `n` amply covers the digit
count). -/
def natDigits (n : Nat) : Str := natDigitsAux n n

def padNum (w n : Nat) : Str :=
  List.replicate (w - (natDigits n).length) '0' ++ natDigits n

/-- Model of `dt.strftime("%Y%m%dT%H%M%S")` (`_fmt_local`, lines 88-89). -/
def fmtLocal (dt : DateTime) : Str :=
  padNum 4 dt.year ++ padNum 2 dt.month ++ padNum 2 dt.day ++ cs "T" ++
  padNum 2 dt.hour ++ padNum 2 dt.minute ++ padNum 2 dt.second

/-- Model of `datetime.now(tz=TZ_UTC).strftime("%Y%m%dT%H%M%SZ")`, applied to the
model's clock reading. -/
def fmtUtcStamp (now : DateTime) : Str := fmtLocal now ++ cs "Z"

def isoOffset (off : Int) : Str :=
  (if off < 0 then cs "-" else cs "+") ++
  padNum 2 (off.natAbs / 60) ++ cs ":" ++ padNum 2 (off.natAbs % 60)

/-- Model of `dt.isoformat()` for an aware datetime with zero microseconds. -/
def isoformat (dt : DateTime) : Str :=
  padNum 4 dt.year ++ cs "-" ++ padNum 2 dt.month ++ cs "-" ++ padNum 2 dt.day ++
  cs "T" ++ padNum 2 dt.hour ++ cs ":" ++ padNum 2 dt.minute ++ cs ":" ++
  padNum 2 dt.second ++ isoOffset dt.offsetMinutes

/-! ## Model of `fetch_bls_cpi_and_nfp` (lines 166-260)

The HTTP fetch and BeautifulSoup are external collaborators: the extractor
is modelled from the point where the table rows exist, a row being its
list of already-extracted column texts
(`[td.get_text(" ", strip=True) for td in tr.find_all(["th","td"])]`).

Character classes (`\s`, `\d`, `\w`, `str.lower`) are modelled on their
ASCII parts; the non-ASCII extras of Python's unicode classes never
intersect the fixed English patterns the script compares against. -/

def isAsciiAlpha (c : Char) : Bool :=
  ('A' ≤ c && c ≤ 'Z') || ('a' ≤ c && c ≤ 'z')

def isWsChar (c : Char) : Bool :=
  c == ' ' || c == '\t' || c == '\n' || c == '\r' || c == '\x0b' || c == '\x0c'

def isDigitCh (c : Char) : Bool := '0' ≤ c && c ≤ '9'

def isWordCh (c : Char) : Bool := isAsciiAlpha c || isDigitCh c || c == '_'

def lowerCh (c : Char) : Char :=
  if 'A' ≤ c && c ≤ 'Z' then Char.ofNat (c.toNat + 32) else c

def lowerStr (s : Str) : Str := s.map lowerCh

/-- Model of `re.compile(r"([A-Za-z]+)\s+(\d{1,2}),\s+(\d{4})", re.I)`: the
`,\s+(\d{4})` part of a match attempt. -/
def matchCommaYear : Str → Option Str
  | ',' :: r =>
    let sp := r.takeWhile isWsChar
    if sp.isEmpty then none
    else
      match r.drop sp.length with
      | a :: b :: c :: d :: _ =>
        if isDigitCh a && isDigitCh b && isDigitCh c && isDigitCh d then
          some [a, b, c, d]
        else none
      | _ => none
  | _ => none

/-- The `(\d{1,2}),\s+(\d{4})` part: greedy two-digit day with backtracking
to one digit before the comma. -/
def matchDayYear : Str → Option (Str × Str)
  | [] => none
  | c1 :: rest =>
    if isDigitCh c1 then
      match rest with
      | [] => none
      | c2 :: rest2 =>
        if isDigitCh c2 then
          match matchCommaYear rest2 with
          | some y => some ([c1, c2], y)
          | none =>
            match matchCommaYear (c2 :: rest2) with
            | some y => some ([c1], y)
            | none => none
        else
          match matchCommaYear (c2 :: rest2) with
          | some y => some ([c1], y)
          | none => none
    else none

/-- One match attempt of the date pattern anchored at the start of `s`
(maximal munch is exact here because the character classes of adjacent
pattern pieces are disjoint). -/
def matchDateAt (s : Str) : Option (Str × Str × Str) :=
  let alpha := s.takeWhile isAsciiAlpha
  if alpha.isEmpty then none
  else
    let r1 := s.drop alpha.length
    let sp1 := r1.takeWhile isWsChar
    if sp1.isEmpty then none
    else
      match matchDayYear (r1.drop sp1.length) with
      | some (day, yr) => some (alpha, day, yr)
      | none => none

/-- Model of `date_pat.search`: try every start position left to right. -/
def searchDate : Str → Option (Str × Str × Str)
  | [] => none
  | c :: rest =>
    match matchDateAt (c :: rest) with
    | some g => some g
    | none => searchDate rest

def monthNames : List (Str × Nat) :=
  [(cs "january", 1), (cs "february", 2), (cs "march", 3), (cs "april", 4),
   (cs "may", 5), (cs "june", 6), (cs "july", 7), (cs "august", 8),
   (cs "september", 9), (cs "october", 10), (cs "november", 11),
   (cs "december", 12)]

def monthFromName (s : Str) : Option Nat :=
  (monthNames.find? (fun p => p.1 == lowerStr s)).map (·.2)

def digitsToNat (ds : Str) : Nat :=
  ds.foldl (fun a c => a * 10 + (c.toNat - 48)) 0

/-- The model's stand-in for the text of the `ValueError` that
`datetime.strptime` raises; the script never catches or inspects it. -/
def strptimeErr : Str :=
  cs "ValueError: time data does not match format %B %d, %Y"

/-- Model of `datetime.strptime(m.group(0), "%B %d, %Y")`: succeeds exactly when
the alphabetic token is a full English month name (case-insensitive) and
the day is valid for that month and year; otherwise `ValueError`. -/
def strptimeBdY (alpha day yr : Str) : Option (Nat × Nat × Nat) :=
  match monthFromName alpha with
  | none => none
  | some m =>
    let d := digitsToNat day
    let y := digitsToNat yr
    if 1 ≤ d ∧ d ≤ daysInMonth y m then some (y, m, d) else none

/-- The inner `to_taipei` helper (lines 208-216): `ok none` when the regex
does not match (row will be skipped), `error` when `strptime` raises (the
exception propagates out of the extractor), `ok (some dt)` on success. -/
def toTaipeiText (dateText : Str) : Except Str (Option DateTime) :=
  match searchDate dateText with
  | none => Except.ok none
  | some (alpha, day, yr) =>
    match strptimeBdY alpha day yr with
    | none => Except.error strptimeErr
    | some (y, m, d) => Except.ok (some (nyToTaipei y m d 8 30))

/-! ### Model of `norm` and the category predicates (lines 198-206) -/

def stripWs (s : Str) : Str :=
  ((s.dropWhile isWsChar).reverse.dropWhile isWsChar).reverse

def collapseWsAux : Nat → Str → Str
  | 0, s => s
  | _ + 1, [] => []
  | fuel + 1, c :: t =>
    if isWsChar c then ' ' :: collapseWsAux fuel (t.dropWhile isWsChar)
    else c :: collapseWsAux fuel t

def collapseWs (s : Str) : Str := collapseWsAux s.length s

/-- Model of `re.sub(r"\s+", " ", s.strip()).lower()`. -/
def norm (s : Str) : Str := lowerStr (collapseWs (stripWs s))

def containsSub (nd : Str) : Str → Bool
  | [] => nd.isEmpty
  | c :: t => leadsWith nd (c :: t) || containsSub nd t

def boundaryAfter3 (s : Str) : Bool :=
  match s.drop 3 with
  | [] => true
  | r :: _ => !isWordCh r

/-- Model of `re.search(r"\bcpi\b", t)`: `prevWord` records whether the previous
character is a word character. -/
def hasWordCpiAux (prevWord : Bool) : Str → Bool
  | [] => false
  | c :: t =>
    (!prevWord && leadsWith (cs "cpi") (c :: t) && boundaryAfter3 (c :: t))
      || hasWordCpiAux (isWordCh c) t

def hasWordCpi (s : Str) : Bool := hasWordCpiAux false s

def isCpi (title : Str) : Bool :=
  let t := norm title
  containsSub (cs "consumer price index") t || hasWordCpi t ||
    containsSub (cs "cpi-u") t

def isNfp (title : Str) : Bool :=
  let t := norm title
  containsSub (cs "employment situation") t ||
    containsSub (cs "the employment situation") t

/-! ### Model of `sorted(set(...))` on aware datetimes -/

def dedupKeepAux : Nat → List DateTime → List DateTime
  | 0, l => l
  | _ + 1, [] => []
  | fuel + 1, d :: ds =>
    d :: dedupKeepAux fuel (ds.filter (fun x => toInstant x != toInstant d))

def dedupKeep (l : List DateTime) : List DateTime := dedupKeepAux l.length l

def instLeDT (a b : DateTime) : Prop := toInstant a ≤ toInstant b

instance : DecidableRel instLeDT := fun a b => Int.decLe (toInstant a) (toInstant b)

def sortByInstant (l : List DateTime) : List DateTime :=
  List.insertionSort instLeDT l

/-- Model of `sorted(set(l))`: deduplicate by instant, then sort ascending by
instant (Python compares aware datetimes by instant). -/
def sortedSet (l : List DateTime) : List DateTime := sortByInstant (dedupKeep l)

/-! ### The row loop and the extractor -/

def joinSpace (parts : List Str) : Str := joinList (cs " ") parts

/-- The body of `for tr in rows` for one row (lines 220-240), up to the
point where (instant, release-title) is known: `ok none` means the row is
skipped, `error` means a `ValueError` escapes. -/
def rowStep (cols : List Str) : Except Str (Option (DateTime × Str)) :=
  if cols.length < 2 then Except.ok none
  else
    match toTaipeiText (cols.getD 0 []) with
    | Except.error e => Except.error e
    | Except.ok (some dt) => Except.ok (some (dt, cols.getD 1 []))
    | Except.ok none =>
      match toTaipeiText (joinSpace (cols.drop 1)) with
      | Except.error e => Except.error e
      | Except.ok none => Except.ok none
      | Except.ok (some dt) => Except.ok (some (dt, cols.getD 0 []))

def blsLoop :
    List (List Str) → List DateTime × List DateTime × List Str →
      Except Str (List DateTime × List DateTime × List Str)
  | [], st => Except.ok st
  | tr :: rest, (cpi, nfp, samples) =>
    match rowStep tr with
    | Except.error e => Except.error e
    | Except.ok none => blsLoop rest (cpi, nfp, samples)
    | Except.ok (some (dt, release)) =>
      let samples2 := if release.isEmpty then samples else samples ++ [norm release]
      let cpi2 := if isCpi release then cpi ++ [dt] else cpi
      let nfp2 := if isNfp release then nfp ++ [dt] else nfp
      blsLoop rest (cpi2, nfp2, samples2)

/-- Python `repr` of a list of strings, as interpolated by the f-string
in the error messages. -/
def renderSampleList (ss : List Str) : Str :=
  cs "[" ++ joinList (cs ", ") (ss.map (fun s => cs "\x27" ++ s ++ cs "\x27")) ++ cs "]"

def blsNoTableMsg : Str :=
  cs "BLS schedule table not found; page structure may have changed or blocked."

def blsCpiEmptyMsg (samples : List Str) : Str :=
  cs "BLS parse failed: CPI list empty. Sample release titles: " ++
    renderSampleList (samples.take 12)

def blsNfpEmptyMsg (samples : List Str) : Str :=
  cs "BLS parse failed: NFP list empty. Sample release titles: " ++
    renderSampleList (samples.take 12)

def fetchBlsCpiAndNfp (rows : List (List Str)) :
    Except Str (List DateTime × List DateTime) :=
  if rows.isEmpty then Except.error blsNoTableMsg
  else
    match blsLoop rows ([], [], []) with
    | Except.error e => Except.error e
    | Except.ok (cpi0, nfp0, samples) =>
      if (sortedSet cpi0).isEmpty then Except.error (blsCpiEmptyMsg samples)
      else if (sortedSet nfp0).isEmpty then Except.error (blsNfpEmptyMsg samples)
      else Except.ok (sortedSet cpi0, sortedSet nfp0)

/-! ## Model of `fetch_bea_gdp_and_pio` (lines 263-331)

`resp.json()` is the external collaborator; the extractor starts from the
parsed document, modelled by `Jval` (objects keep key order, as Python
dicts do).  `datetime.fromisoformat` is modelled on the canonical
offset-aware form `YYYY-MM-DDTHH:MM:SS±HH:MM` the BEA feed carries;
other accepted variants of Python's parser do not occur in the feed and
no claim depends on which malformed variants are additionally accepted
(unparseable entries are skipped either way). -/

inductive Jval where
  | jstr (s : Str)
  | jarr (items : List Jval)
  | jobj (fields : List (Str × Jval))
  | jother

def parse2 : Str → Option (Nat × Str)
  | a :: b :: r =>
    if isDigitCh a && isDigitCh b then some (digitsToNat [a, b], r) else none
  | _ => none

def parse4 : Str → Option (Nat × Str)
  | a :: b :: c :: d :: r =>
    if isDigitCh a && isDigitCh b && isDigitCh c && isDigitCh d then
      some (digitsToNat [a, b, c, d], r)
    else none
  | _ => none

def expectCh (c : Char) : Str → Option Str
  | x :: r => if x == c then some r else none
  | [] => none

/-- Model of `datetime.fromisoformat` on an offset-aware timestamp. -/
def fromIso (s : Str) : Option DateTime :=
  match parse4 s with
  | none => none
  | some (y, r1) =>
  match expectCh '-' r1 with
  | none => none
  | some r2 =>
  match parse2 r2 with
  | none => none
  | some (m, r3) =>
  match expectCh '-' r3 with
  | none => none
  | some r4 =>
  match parse2 r4 with
  | none => none
  | some (d, r5) =>
  match expectCh 'T' r5 with
  | none => none
  | some r6 =>
  match parse2 r6 with
  | none => none
  | some (h, r7) =>
  match expectCh ':' r7 with
  | none => none
  | some r8 =>
  match parse2 r8 with
  | none => none
  | some (mi, r9) =>
  match expectCh ':' r9 with
  | none => none
  | some r10 =>
  match parse2 r10 with
  | none => none
  | some (sec, r11) =>
  match r11 with
  | sign :: r12 =>
    if sign == '+' ∨ sign == '-' then
      match parse2 r12 with
      | none => none
      | some (oh, r13) =>
      match expectCh ':' r13 with
      | none => none
      | some r14 =>
      match parse2 r14 with
      | none => none
      | some (om, r15) =>
        if r15.isEmpty && 1 ≤ m && m ≤ 12 && 1 ≤ d && d ≤ daysInMonth y m &&
            h < 24 && mi < 60 && sec < 60 && oh < 24 && om < 60 then
          let off : Int := (oh * 60 + om : Nat)
          some ⟨y, m, d, h, mi, sec, if sign == '-' then -off else off⟩
        else none
    else none
  | [] => none

def releaseListOf (data : List (Str × Jval)) (key : Str) : List Jval :=
  match data.find? (fun p => p.1 == key) with
  | some (_, Jval.jobj fields) =>
    match fields.find? (fun p => p.1 == cs "release_dates") with
    | some (_, Jval.jarr items) => items
    | _ => []
  | _ => []

/-- Model of `_parse_dates` (lines 297-314): keep string entries that parse and
fall in the requested year, convert to Taipei, then `sorted(set(...))`. -/
def parseDatesBea (data : List (Str × Jval)) (key : Str) (year : Nat) :
    List DateTime :=
  sortedSet ((releaseListOf data key).filterMap (fun v =>
    match v with
    | Jval.jstr s =>
      match fromIso s with
      | some dt => if dt.year = year then some (astimezoneTaipei dt) else none
      | none => none
    | _ => none))

/-- Model of `_find_key` (lines 283-292): exact key, then normalized equality,
then normalized substring, first match in document order. -/
def findKeyBea (data : List (Str × Jval)) (target : Str) : Option Str :=
  if data.any (fun p => p.1 == target) then some target
  else
    let t := norm target
    match data.find? (fun p => norm p.1 == t) with
    | some p => some p.1
    | none =>
      match data.find? (fun p => containsSub t (norm p.1)) with
      | some p => some p.1
      | none => none

def beaNonDictMsg : Str :=
  cs "BEA release_dates.json unexpected empty or non-dict response."

def renderOptKey : Option Str → Str
  | none => cs "None"
  | some k => k

def beaKeysMsg (g p : Option Str) : Str :=
  cs "BEA keys not found. GDP=" ++ renderOptKey g ++ cs ", PIO=" ++ renderOptKey p

def beaGdpEmptyMsg : Str :=
  cs "BEA parse failed: GDP list empty after filtering by year."

def beaPioEmptyMsg : Str :=
  cs "BEA parse failed: PIO/PCE list empty after filtering by year."

def fetchBeaGdpAndPio (data : Jval) (year : Nat) :
    Except Str (List DateTime × List DateTime) :=
  match data with
  | Jval.jobj fields =>
    if fields.isEmpty then Except.error beaNonDictMsg
    else
      match findKeyBea fields (cs "Gross Domestic Product"),
          findKeyBea fields (cs "Personal Income and Outlays") with
      | some gk, some pk =>
        if (parseDatesBea fields gk year).isEmpty then
          Except.error beaGdpEmptyMsg
        else if (parseDatesBea fields pk year).isEmpty then
          Except.error beaPioEmptyMsg
        else Except.ok (parseDatesBea fields gk year, parseDatesBea fields pk year)
      | g, p => Except.error (beaKeysMsg g p)
  | _ => Except.error beaNonDictMsg

/-! ## Model of `fomc_statement_times_tp` (lines 333-340) -/

def FOMC_STATEMENT_DATES_2026 : List Str :=
  [cs "2026-01-28", cs "2026-03-18", cs "2026-04-29", cs "2026-06-17",
   cs "2026-07-29", cs "2026-09-16", cs "2026-10-28", cs "2026-12-09"]

def parseYmd (s : Str) : Option (Nat × Nat × Nat) :=
  match parse4 s with
  | none => none
  | some (y, r1) =>
  match expectCh '-' r1 with
  | none => none
  | some r2 =>
  match parse2 r2 with
  | none => none
  | some (m, r3) =>
  match expectCh '-' r3 with
  | none => none
  | some r4 =>
  match parse2 r4 with
  | none => none
  | some (d, r5) => if r5.isEmpty then some (y, m, d) else none

def fomcGuardMsg : Str :=
  cs "FOMC dates are hard-coded for 2026 only in this script."

/-- The loop body of `fomc_statement_times_tp`:
`datetime.fromisoformat(d + "T14:00:00").replace(tzinfo=TZ_NY)
.astimezone(TZ_TAIPEI)` for each hardcoded date; every literal in the
hardcoded list parses, so the `filterMap` drops nothing. -/
def fomcTimes2026 : List DateTime :=
  FOMC_STATEMENT_DATES_2026.filterMap (fun d =>
    (parseYmd d).map (fun t => nyToTaipei t.1 t.2.1 t.2.2 14 0))

def fomcStatementTimesTp (year : Nat) : Except Str (List DateTime) :=
  if year ≠ 2026 then Except.error fomcGuardMsg
  else Except.ok fomcTimes2026

/-! ## Model of `_stable_uid` (lines 92-95)

`hashlib.sha1` is implemented bit-for-bit (FIPS 180-4) on byte lists,
with 32-bit words as `Nat % 2 ^ 32`. -/

def M32 : Nat := 4294967296

def rotl32 (k x : Nat) : Nat := ((x <<< k) % M32) ||| (x >>> (32 - k))

def be8 (n : Nat) : List Nat :=
  [(n >>> 56) % 256, (n >>> 48) % 256, (n >>> 40) % 256, (n >>> 32) % 256,
   (n >>> 24) % 256, (n >>> 16) % 256, (n >>> 8) % 256, n % 256]

def sha1Pad (m : List Nat) : List Nat :=
  m ++ [128] ++ List.replicate ((119 - m.length % 64) % 64) 0 ++ be8 (8 * m.length)

def chunks64Aux : Nat → List Nat → List (List Nat)
  | 0, _ => []
  | _ + 1, [] => []
  | fuel + 1, b :: t => ((b :: t).take 64) :: chunks64Aux fuel ((b :: t).drop 64)

def chunks64 (l : List Nat) : List (List Nat) := chunks64Aux l.length l

def words16 : List Nat → List Nat
  | a :: b :: c :: d :: t => (((a * 256 + b) * 256 + c) * 256 + d) :: words16 t
  | _ => []

/-- Message-schedule extension; `acc` holds the words produced so far in
reverse order, so `w[i-3]` is `acc[2]`, ..., `w[i-16]` is `acc[15]`. -/
def extendW : List Nat → Nat → List Nat
  | acc, 0 => acc.reverse
  | acc, n + 1 =>
    let w := rotl32 1 ((acc.getD 2 0) ^^^ (acc.getD 7 0) ^^^
      (acc.getD 13 0) ^^^ (acc.getD 15 0))
    extendW (w :: acc) n

def sha1F (i b c d : Nat) : Nat :=
  if i < 20 then (b &&& c) ||| (((M32 - 1) ^^^ b) &&& d)
  else if i < 40 then b ^^^ c ^^^ d
  else if i < 60 then (b &&& c) ||| (b &&& d) ||| (c &&& d)
  else b ^^^ c ^^^ d

def sha1K (i : Nat) : Nat :=
  if i < 20 then 0x5A827999 else if i < 40 then 0x6ED9EBA1
  else if i < 60 then 0x8F1BBCDC else 0xCA62C1D6

def sha1Rounds : Nat → List Nat →
    Nat × Nat × Nat × Nat × Nat → Nat × Nat × Nat × Nat × Nat
  | _, [], st => st
  | i, w :: ws, (a, b, c, d, e) =>
    let tmp := (rotl32 5 a + sha1F i b c d + e + sha1K i + w) % M32
    sha1Rounds (i + 1) ws (tmp, a, rotl32 30 b, c, d)

def sha1Init : Nat × Nat × Nat × Nat × Nat :=
  (0x67452301, 0xEFCDAB89, 0x98BADCFE, 0x10325476, 0xC3D2E1F0)

def processBlock (h : Nat × Nat × Nat × Nat × Nat) (block : List Nat) :
    Nat × Nat × Nat × Nat × Nat :=
  let ws := extendW (words16 block).reverse 64
  let r := sha1Rounds 0 ws h
  ((h.1 + r.1) % M32, (h.2.1 + r.2.1) % M32, (h.2.2.1 + r.2.2.1) % M32,
   (h.2.2.2.1 + r.2.2.2.1) % M32, (h.2.2.2.2 + r.2.2.2.2) % M32)

def sha1H (msg : List Nat) : Nat × Nat × Nat × Nat × Nat :=
  (chunks64 (sha1Pad msg)).foldl processBlock sha1Init

/-- The 160-bit SHA-1 digest of a byte list, as one natural number. -/
def sha1Digest (msg : List Nat) : Nat :=
  ((((sha1H msg).1 * M32 + (sha1H msg).2.1) * M32 + (sha1H msg).2.2.1) * M32 +
    (sha1H msg).2.2.2.1) * M32 + (sha1H msg).2.2.2.2

def hexChar (n : Nat) : Char :=
  if n < 10 then Char.ofNat (48 + n) else Char.ofNat (87 + n)

/-- Big-endian hex rendering, zero-padded to `k` digits
(`.hexdigest()` is `toHexPad 40`). -/
def toHexPad : Nat → Nat → Str
  | 0, _ => []
  | k + 1, n => toHexPad k (n / 16) ++ [hexChar (n % 16)]

def utf8Encode (s : Str) : List Nat := s.flatMap utf8Bytes

/-- Model of `base = f"{summary}|{dtstart.isoformat()}"`. -/
def uidBase (summary : Str) (dtstart : DateTime) : Str :=
  summary ++ cs "|" ++ isoformat dtstart

/-- Model of `_stable_uid`: `f"fin-{sha1(base)[:20]}@zeuscheng.github.io"`. -/
def stableUid (summary : Str) (dtstart : DateTime) : Str :=
  cs "fin-" ++
    (toHexPad 40 (sha1Digest (utf8Encode (uidBase summary dtstart)))).take 20 ++
    cs "@zeuscheng.github.io"

/-! ## Event model and calendar serializer (lines 103-139, 347-423) -/

def YEAR : Nat := 2026
def ALARMS_MINUTES : List Nat := [30, 60]
def DEFAULT_DURATION_MIN : Nat := 15
def FOMC_DURATION_MIN : Nat := 30

structure Event where
  summary : Str
  start_tp : DateTime
  duration_min : Nat
  description : Str
  categories : List Str
deriving DecidableEq, Repr

def alarmLines (summary : Str) (m : Nat) : List Str :=
  [cs "BEGIN:VALARM",
   cs "ACTION:DISPLAY",
   cs "DESCRIPTION:提醒：" ++ summary,
   cs "TRIGGER:-PT" ++ natDigits m ++ cs "M",
   cs "END:VALARM"]

/-- Model of `_event_to_ics_lines` (lines 112-139); `now` is the clock reading
used for the DTSTAMP field. -/
def eventToIcsLines (ev : Event) (now : DateTime) : List Str :=
  [cs "BEGIN:VEVENT",
   cs "UID:" ++ stableUid ev.summary ev.start_tp,
   cs "DTSTAMP:" ++ fmtUtcStamp now,
   cs "SUMMARY:" ++ ev.summary,
   cs "DTSTART;TZID=Asia/Taipei:" ++ fmtLocal ev.start_tp,
   cs "DTEND;TZID=Asia/Taipei:" ++ fmtLocal (addMinutes ev.start_tp ev.duration_min)]
  ++ (if ev.categories.isEmpty then []
      else [cs "CATEGORIES:" ++ joinList (cs ",") ev.categories])
  ++ (if ev.description.isEmpty then []
      else [cs "DESCRIPTION:" ++ escapeIcsText ev.description])
  ++ ALARMS_MINUTES.flatMap (alarmLines ev.summary)
  ++ [cs "END:VEVENT"]

def icsHeader : List Str :=
  [cs "BEGIN:VCALENDAR",
   cs "VERSION:2.0",
   cs "PRODID:-//ZeusCheng//US Macro Calendar 2026//ZH-TW",
   cs "CALSCALE:GREGORIAN",
   cs "METHOD:PUBLISH",
   cs "X-WR-CALNAME:" ++ natDigits YEAR ++ cs " 重大美國金融數據（Taipei）",
   cs "X-WR-TIMEZONE:Asia/Taipei"]

/-- All logical lines of the document, in order. -/
def icsDocLines (events : List Event) (now : DateTime) : List Str :=
  icsHeader ++ events.flatMap (fun ev => eventToIcsLines ev now) ++ [cs "END:VCALENDAR"]

/-- Model of `build_ics` (lines 406-423):
`"\r\n".join(_fold_ics_line(l) for l in lines) + "\r\n"`. -/
def buildIcs (events : List Event) (now : DateTime) : Str :=
  joinList (cs "\r\n") ((icsDocLines events now).map foldIcsLine) ++ cs "\r\n"

/-- The physical lines of the document: the document text is exactly
these, CRLF-separated (every logical line is CRLF-joined from its fold
chunks, and the lines themselves are CRLF-joined). -/
def docPhysLines (events : List Event) (now : DateTime) : List Str :=
  (icsDocLines events now).flatMap foldChunks

/-! ### Model of `build_events` (lines 347-403) -/

def cpiEvent (dt : DateTime) : Event :=
  ⟨cs "美國 CPI 公佈（BLS）", dt, DEFAULT_DURATION_MIN,
   cs "來源：BLS schedule（" ++ natDigits YEAR ++ cs "；08:30 ET，已換算台北時間）",
   [cs "US", cs "CPI", cs "BLS"]⟩

def nfpEvent (dt : DateTime) : Event :=
  ⟨cs "美國 非農/就業報告 NFP（BLS Employment Situation）", dt, DEFAULT_DURATION_MIN,
   cs "來源：BLS schedule（" ++ natDigits YEAR ++ cs "；08:30 ET，已換算台北時間）",
   [cs "US", cs "NFP", cs "BLS"]⟩

def fomcEvent (dt : DateTime) : Event :=
  ⟨cs "FOMC 利率決議聲明（Fed）", dt, FOMC_DURATION_MIN,
   cs "來源：Fed FOMC calendar（" ++ natDigits YEAR ++ cs "；假設 14:00 ET 發布，已換算台北時間）",
   [cs "US", cs "FOMC", cs "Fed"]⟩

def gdpEvent (dt : DateTime) : Event :=
  ⟨cs "美國 GDP 發布（BEA）", dt, DEFAULT_DURATION_MIN,
   cs "來源：BEA release_dates.json（" ++ natDigits YEAR ++ cs "；原始時間含時區，已換算台北時間）",
   [cs "US", cs "GDP", cs "BEA"]⟩

def pioEvent (dt : DateTime) : Event :=
  ⟨cs "美國 PCE/個人所得與支出（BEA）", dt, DEFAULT_DURATION_MIN,
   cs "來源：BEA release_dates.json（" ++ natDigits YEAR ++ cs "；含 PCE；已換算台北時間）",
   [cs "US", cs "PCE", cs "BEA"]⟩

def eventLe (a b : Event) : Prop := toInstant a.start_tp ≤ toInstant b.start_tp

instance : DecidableRel eventLe :=
  fun a b => Int.decLe (toInstant a.start_tp) (toInstant b.start_tp)

/-- The body of `build_events` given the five per-category instant lists:
append the five mapped blocks in source order, then
`events.sort(key=lambda e: e.start_tp)`. -/
def buildEventsFrom (cpi nfp fomc gdp pio : List DateTime) : List Event :=
  List.insertionSort eventLe
    (cpi.map cpiEvent ++ nfp.map nfpEvent ++ fomc.map fomcEvent ++
     gdp.map gdpEvent ++ pio.map pioEvent)

/-- Model of `build_events` composed with its three data sources (the fetch
results stand in for the fixed fixture contents). -/
def buildEventsPipeline (rows : List (List Str)) (data : Jval) :
    Except Str (List Event) :=
  match fetchBlsCpiAndNfp rows with
  | Except.error e => Except.error e
  | Except.ok (cpi, nfp) =>
    match fomcStatementTimesTp YEAR with
    | Except.error e => Except.error e
    | Except.ok fomc =>
      match fetchBeaGdpAndPio data YEAR with
      | Except.error e => Except.error e
      | Except.ok (gdp, pio) => Except.ok (buildEventsFrom cpi nfp fomc gdp pio)

/-- Replace the stamp payload of a DTSTAMP line by a fixed marker;
other lines are untouched. -/
def maskDtstampLine (l : Str) : Str :=
  if leadsWith (cs "DTSTAMP:") l then cs "DTSTAMP:MASKED" else l

/-- The document with every DTSTAMP field masked, rendered exactly like
`build_ics` otherwise. -/
def maskedRender (events : List Event) (now : DateTime) : Str :=
  joinList (cs "\r\n")
    (((icsDocLines events now).map maskDtstampLine).map foldIcsLine) ++ cs "\r\n"

/-! ### Definitions used only in the claim statements and witnesses -/

/-- Strictly ascending by instant: sorted with no two entries sharing an
instant. -/
def strictAscending (l : List DateTime) : Prop :=
  l.Pairwise (fun a b => toInstant a < toInstant b)

instance (l : List DateTime) : Decidable (strictAscending l) := by
  unfold strictAscending
  infer_instance

/-- The US DST window of 2026 as seen at a wall clock of 08:30:
2026-03-08 (DST starts 02:00 that day) through 2026-10-31 (DST ends
02:00 on 2026-11-01). -/
def inDstWindow2026 (m d : Nat) : Prop := (3 < m ∨ (m = 3 ∧ 8 ≤ d)) ∧ m < 11

instance (m d : Nat) : Decidable (inDstWindow2026 m d) := by
  unfold inDstWindow2026
  infer_instance

/-- The property claim C6 asserts of one 2026 calendar date. -/
def C6At (m d : Nat) : Prop :=
  1 ≤ m → 1 ≤ d → d ≤ daysInMonth 2026 m →
    (inDstWindow2026 m d →
      nyToTaipei 2026 m d 8 30 = ⟨2026, m, d, 20, 30, 0, 480⟩) ∧
    (¬ inDstWindow2026 m d →
      nyToTaipei 2026 m d 8 30 = ⟨2026, m, d, 21, 30, 0, 480⟩) ∧
    toInstant (nyToTaipei 2026 m d 8 30) =
      toInstant ⟨2026, m, d, 8, 30, 0, -(nyWestOffsetMin 2026 m d 8 30 : Int)⟩

instance (m d : Nat) : Decidable (C6At m d) := by
  unfold C6At
  infer_instance

instance exceptDecEq {ε α : Type} [DecidableEq ε] [DecidableEq α] :
    DecidableEq (Except ε α) := fun a b =>
  match a, b with
  | Except.error e1, Except.error e2 =>
    if h : e1 = e2 then isTrue (by rw [h])
    else isFalse (fun he => h (Except.error.inj he))
  | Except.ok v1, Except.ok v2 =>
    if h : v1 = v2 then isTrue (by rw [h])
    else isFalse (fun he => h (Except.ok.inj he))
  | Except.error _, Except.ok _ => isFalse (fun he => Except.noConfusion he)
  | Except.ok _, Except.error _ => isFalse (fun he => Except.noConfusion he)

/-- The 80-bit truncation of the UID digest: the number whose 20 hex
digits are the ones `_stable_uid` keeps. -/
def truncKey (summary : Str) (dtstart : DateTime) : Nat :=
  sha1Digest (utf8Encode (uidBase summary dtstart)) / 16 ^ 20

/-- BLS fixture: two well-formed rows, one per category. -/
def rowsFix : List (List Str) :=
  [[cs "January 14, 2026", cs "Consumer Price Index"],
   [cs "February 6, 2026", cs "Employment Situation"]]

/-- BEA fixture with both keys present and one date each. -/
def beaFix : Jval :=
  Jval.jobj
    [(cs "Gross Domestic Product",
      Jval.jobj [(cs "release_dates",
        Jval.jarr [Jval.jstr (cs "2026-01-29T08:30:00-05:00")])]),
     (cs "Personal Income and Outlays",
      Jval.jobj [(cs "release_dates",
        Jval.jarr [Jval.jstr (cs "2026-02-27T08:30:00-05:00")])])]

/-- BEA document whose only observed key is "Foo". -/
def beaCexData : Jval :=
  Jval.jobj [(cs "Foo", Jval.jobj [(cs "release_dates", Jval.jarr [])])]

/-- A row whose first column matches the date pattern but is not a real
date, so `strptime` raises. -/
def cexRow : List Str := [cs "Foo 14, 2026", cs "CPI"]

/-- The CPI event of 2026-01-14 (08:30 ET = 21:30 Taipei), exactly as
`build_events` constructs it. -/
def c1CexEvent : Event := cpiEvent (nyToTaipei 2026 1 14 8 30)

def c1Now : DateTime := ⟨2026, 1, 1, 0, 0, 0, 0⟩

instance : IsTotal DateTime instLeDT := ⟨fun a b => Int.le_total _ _⟩
instance : IsTrans DateTime instLeDT := ⟨fun _ _ _ hab hbc => le_trans hab hbc⟩

instance : IsTotal Event eventLe := ⟨fun a b => Int.le_total _ _⟩
instance : IsTrans Event eventLe := ⟨fun _ _ _ hab hbc => le_trans hab hbc⟩


/-! ### Lemmas about folding -/

theorem foldChunksAux_ne_nil (fuel : Nat) (line : Str) :
    foldChunksAux fuel line ≠ [] := by
  cases fuel with
  | zero => simp [foldChunksAux]
  | succ n =>
    rw [foldChunksAux]
    split <;> simp

theorem foldChunks_ne_nil (line : Str) : foldChunks line ≠ [] :=
  foldChunksAux_ne_nil _ _

theorem foldChunksAux_length_le :
    ∀ (fuel : Nat) (line : Str), line.length ≤ 75 + 74 * fuel →
      ∀ c ∈ foldChunksAux fuel line, c.length ≤ 75 := by
  intro fuel
  induction fuel with
  | zero =>
    intro line h c hc
    simp only [foldChunksAux, List.mem_singleton] at hc
    subst hc
    omega
  | succ n ih =>
    intro line h c hc
    rw [foldChunksAux] at hc
    split at hc
    · simp only [List.mem_singleton] at hc
      subst hc
      assumption
    · rcases List.mem_cons.1 hc with h1 | h1
      · subst h1
        simpa using List.length_take_le 75 line
      · refine ih _ ?_ c h1
        simp only [List.length_cons, List.length_drop]
        omega

theorem foldChunks_length_le (line : Str) :
    ∀ c ∈ foldChunks line, c.length ≤ 75 :=
  foldChunksAux_length_le line.length line (by omega)

theorem foldChunksAux_head_space :
    ∀ (fuel : Nat) (r : Str), ∀ c ∈ foldChunksAux fuel (' ' :: r),
      leadsWith [' '] c = true := by
  intro fuel
  induction fuel with
  | zero =>
    intro r c hc
    simp only [foldChunksAux, List.mem_singleton] at hc
    subst hc
    simp [leadsWith]
  | succ n ih =>
    intro r c hc
    rw [foldChunksAux] at hc
    split at hc
    · simp only [List.mem_singleton] at hc
      subst hc
      simp [leadsWith]
    · rcases List.mem_cons.1 hc with h1 | h1
      · subst h1
        simp [List.take_cons, leadsWith]
      · exact ih _ c h1

theorem foldChunks_tail_space (line : Str) :
    ∀ c ∈ (foldChunks line).tail, leadsWith [' '] c = true := by
  unfold foldChunks
  cases hfuel : line.length with
  | zero => simp [foldChunksAux]
  | succ n =>
    rw [foldChunksAux]
    split
    · simp
    · intro c hc
      simp only [List.tail_cons] at hc
      exact foldChunksAux_head_space n _ c hc

theorem removeFolds_cons_ne (c : Char) (t : Str) (h : c ≠ '\r') :
    removeFolds (c :: t) = c :: removeFolds t := by
  match t with
  | [] => rfl
  | [c2] => rfl
  | c2 :: c3 :: rest =>
    rw [removeFolds]
    rw [if_neg]
    intro hcon
    exact h hcon.1

theorem removeFolds_of_no_cr (s : Str) (h : '\r' ∉ s) : removeFolds s = s := by
  induction s with
  | nil => rfl
  | cons c t ih =>
    have hc : c ≠ '\r' := by
      intro he
      exact h (by simp [he])
    rw [removeFolds_cons_ne c t hc, ih (fun hm => h (List.mem_cons_of_mem _ hm))]

theorem removeFolds_append_of_no_cr (a b : Str) (h : '\r' ∉ a) :
    removeFolds (a ++ b) = a ++ removeFolds b := by
  induction a with
  | nil => simp
  | cons c t ih =>
    have hc : c ≠ '\r' := by
      intro he
      exact h (by simp [he])
    simp only [List.cons_append]
    rw [removeFolds_cons_ne c _ hc, ih (fun hm => h (List.mem_cons_of_mem _ hm))]

theorem take_no_cr (s : Str) (n : Nat) (h : '\r' ∉ s) : '\r' ∉ s.take n :=
  fun hm => h (List.mem_of_mem_take hm)

theorem drop_no_cr (s : Str) (n : Nat) (h : '\r' ∉ s) : '\r' ∉ s.drop n :=
  fun hm => h (List.mem_of_mem_drop hm)

theorem removeFolds_foldAux :
    ∀ (fuel : Nat) (line : Str), line.length ≤ 75 + 74 * fuel → '\r' ∉ line →
      removeFolds (joinList (cs "\r\n") (foldChunksAux fuel line)) = line := by
  intro fuel
  induction fuel with
  | zero =>
    intro line _ h
    simp only [foldChunksAux, joinList]
    exact removeFolds_of_no_cr line h
  | succ n ih =>
    intro line hlen h
    rw [foldChunksAux]
    split
    · exact removeFolds_of_no_cr line h
    · rename_i hgt
      have hnocr : '\r' ∉ ' ' :: line.drop 75 := by
        intro hm
        rcases List.mem_cons.1 hm with h1 | h1
        · exact absurd h1.symm (by decide)
        · exact drop_no_cr line 75 h h1
      have hrec := ih (' ' :: line.drop 75)
        (by simp only [List.length_cons, List.length_drop]; omega) hnocr
      rcases hchunks : foldChunksAux n (' ' :: line.drop 75) with _ | ⟨c0, crest⟩
      · exact absurd hchunks (foldChunksAux_ne_nil _ _)
      · have hc0 : leadsWith [' '] c0 = true :=
          foldChunksAux_head_space n (line.drop 75) c0
            (by rw [hchunks]; exact List.mem_cons_self _ _)
        rcases c0 with _ | ⟨c0h, c0t⟩
        · simp [leadsWith] at hc0
        · have hc0h : c0h = ' ' := by
            simp [leadsWith] at hc0
            exact hc0.symm
          subst hc0h
          rw [hchunks] at hrec
          -- the joined tail starts with the inserted space
          obtain ⟨jrest, hj⟩ :
              ∃ t, joinList (cs "\r\n") ((' ' :: c0t) :: crest) = ' ' :: t := by
            cases crest with
            | nil => exact ⟨c0t, by simp [joinList]⟩
            | cons y ys =>
              exact ⟨c0t ++ cs "\r\n" ++ joinList (cs "\r\n") (y :: ys),
                by simp [joinList, List.append_assoc]⟩
          rw [hj] at hrec
          have hrest' : removeFolds jrest = line.drop 75 := by
            have hr := removeFolds_cons_ne ' ' jrest (by decide)
            rw [hr] at hrec
            exact List.cons_injective.eq_iff.mp hrec
          have hjoin2 :
              joinList (cs "\r\n") (line.take 75 :: (' ' :: c0t) :: crest) =
                line.take 75 ++ ('\r' :: '\n' :: ' ' :: jrest) := by
            rw [joinList, hj]
            simp [cs, List.append_assoc]
          rw [hjoin2,
            removeFolds_append_of_no_cr _ _ (take_no_cr line 75 h)]
          have hdrop :
              removeFolds ('\r' :: '\n' :: ' ' :: jrest) = removeFolds jrest := by
            rw [removeFolds]
            simp
          rw [hdrop, hrest', List.take_append_drop]

/-- Round trip of the folding: removing every CRLF-space sequence from the
folded text gives back the original line, provided the line contains no raw
carriage return. -/
theorem removeFolds_foldIcsLine (line : Str) (h : '\r' ∉ line) :
    removeFolds (foldIcsLine line) = line :=
  removeFolds_foldAux line.length line (by omega) h

/-! ### Lemmas about escaping -/

theorem mem_replaceStrAux (pat rep : Str) :
    ∀ (fuel : Nat) (s : Str) (c : Char),
      c ∈ replaceStrAux pat rep fuel s → c ∈ rep ∨ c ∈ s := by
  intro fuel
  induction fuel with
  | zero =>
    intro s c h
    exact Or.inr h
  | succ n ih =>
    intro s c h
    cases s with
    | nil => simp [replaceStrAux] at h
    | cons d rest =>
      rw [replaceStrAux] at h
      split at h
      · rcases List.mem_append.1 h with h1 | h1
        · exact Or.inl h1
        · rcases ih _ c h1 with h2 | h2
          · exact Or.inl h2
          · exact Or.inr (List.mem_of_mem_drop h2)
      · rcases List.mem_cons.1 h with h1 | h1
        · exact Or.inr (by simp [h1])
        · rcases ih _ c h1 with h2 | h2
          · exact Or.inl h2
          · exact Or.inr (List.mem_cons_of_mem _ h2)

theorem mem_replaceStr (pat rep : Str) (s : Str) (c : Char)
    (h : c ∈ replaceStr pat rep s) : c ∈ rep ∨ c ∈ s :=
  mem_replaceStrAux pat rep s.length s c h

theorem not_mem_replace_single_aux (p : Char) (rep : Str) (hrep : p ∉ rep) :
    ∀ (fuel : Nat) (s : Str), s.length ≤ fuel →
      p ∉ replaceStrAux [p] rep fuel s := by
  intro fuel
  induction fuel with
  | zero =>
    intro s hs
    have : s = [] := List.length_eq_zero.1 (Nat.le_zero.1 hs)
    subst this
    simp [replaceStrAux]
  | succ n ih =>
    intro s hs
    cases s with
    | nil => simp [replaceStrAux]
    | cons d rest =>
      rw [replaceStrAux]
      split
      · rename_i hcond
        intro hm
        rcases List.mem_append.1 hm with h1 | h1
        · exact hrep h1
        · exact ih _ (by simp at hs ⊢; omega) h1
      · rename_i hcond
        intro hm
        rcases List.mem_cons.1 hm with h1 | h1
        · -- the head cannot be `p`, otherwise the pattern would have matched
          apply hcond
          refine ⟨by simp, ?_⟩
          simp [leadsWith, h1]
        · exact ih _ (by simp at hs; omega) h1

/-- After replacing the single-character pattern `[p]`, the character `p`
no longer occurs (when it does not occur in the replacement). -/
theorem not_mem_replace_single (p : Char) (rep : Str) (s : Str)
    (hrep : p ∉ rep) : p ∉ replaceStr [p] rep s :=
  not_mem_replace_single_aux p rep hrep s.length s (le_refl _)

theorem replaceStrAux_of_head_not_mem (p : Char) (ps rep : Str) :
    ∀ (fuel : Nat) (s : Str), p ∉ s →
      replaceStrAux (p :: ps) rep fuel s = s := by
  intro fuel
  induction fuel with
  | zero => intro s _; rfl
  | succ n ih =>
    intro s h
    cases s with
    | nil => rfl
    | cons c t =>
      have hc : p ≠ c := by
        intro he
        exact h (by simp [he])
      rw [replaceStrAux, if_neg]
      · rw [ih t (fun hm => h (List.mem_cons_of_mem _ hm))]
      · intro hcon
        have := hcon.2
        simp [leadsWith, hc] at this

/-- If the first character of the pattern never occurs, replacement is the
identity. -/
theorem replaceStr_of_head_not_mem (p : Char) (ps rep : Str) (s : Str)
    (h : p ∉ s) : replaceStr (p :: ps) rep s = s :=
  replaceStrAux_of_head_not_mem p ps rep s.length s h

theorem escape_no_cr_lf (text : Str) :
    '\r' ∉ escapeIcsText text ∧ '\n' ∉ escapeIcsText text := by
  unfold escapeIcsText
  constructor
  · intro hm
    rcases mem_replaceStr _ _ _ _ hm with h1 | h1
    · simp [cs] at h1
    · have h2 : ('\r' : Char) ∉ replaceStr (cs "\r") (cs "\n")
          (replaceStr (cs "\r\n") (cs "\n") text) := by
        apply not_mem_replace_single
        simp [cs]
      exact h2 h1
  · apply not_mem_replace_single
    simp [cs]

/-- Once no CR and no LF remain, a second pass of the escaper is the
identity. -/
theorem escape_of_clean (s : Str) (hcr : '\r' ∉ s) (hlf : '\n' ∉ s) :
    escapeIcsText s = s := by
  unfold escapeIcsText
  rw [show cs "\r\n" = '\r' :: cs "\n" from rfl,
    replaceStr_of_head_not_mem _ _ _ _ hcr,
    show cs "\r" = '\r' :: ([] : Str) from rfl,
    replaceStr_of_head_not_mem _ _ _ _ hcr,
    show cs "\n" = '\n' :: ([] : Str) from rfl,
    replaceStr_of_head_not_mem _ _ _ _ hlf]

/-! ### Sortedness lemmas -/

theorem dedupKeepAux_subset :
    ∀ (fuel : Nat) (l : List DateTime) (x : DateTime),
      x ∈ dedupKeepAux fuel l → x ∈ l := by
  intro fuel
  induction fuel with
  | zero => intro l x hx; exact hx
  | succ n ih =>
    intro l x hx
    cases l with
    | nil => simpa [dedupKeepAux] using hx
    | cons d ds =>
      rw [dedupKeepAux] at hx
      rcases List.mem_cons.1 hx with h | h
      · simp [h]
      · exact List.mem_cons_of_mem _ (List.mem_of_mem_filter (ih _ x h))

theorem dedupKeep_subset (l : List DateTime) (x : DateTime)
    (hx : x ∈ dedupKeep l) : x ∈ l :=
  dedupKeepAux_subset l.length l x hx

theorem dedupKeepAux_pairwise :
    ∀ (fuel : Nat) (l : List DateTime), l.length ≤ fuel →
      (dedupKeepAux fuel l).Pairwise (fun a b => toInstant a ≠ toInstant b) := by
  intro fuel
  induction fuel with
  | zero =>
    intro l hl
    have : l = [] := List.length_eq_zero.1 (Nat.le_zero.1 hl)
    subst this
    simp [dedupKeepAux]
  | succ n ih =>
    intro l hl
    cases l with
    | nil => simp [dedupKeepAux]
    | cons d ds =>
      rw [dedupKeepAux]
      refine List.Pairwise.cons ?_ ?_
      · intro y hy
        have hmem := dedupKeepAux_subset _ _ y hy
        have := List.of_mem_filter hmem
        simpa [bne_iff_ne, ne_comm] using this
      · refine ih _ ?_
        have := List.length_filter_le (fun x => toInstant x != toInstant d) ds
        simp only [List.length_cons] at hl
        omega

theorem dedupKeep_pairwise (l : List DateTime) :
    (dedupKeep l).Pairwise (fun a b => toInstant a ≠ toInstant b) :=
  dedupKeepAux_pairwise l.length l (le_refl _)

theorem sortedSet_strict (l : List DateTime) :
    (sortedSet l).Pairwise (fun a b => toInstant a < toInstant b) := by
  have hsorted : (sortedSet l).Pairwise instLeDT :=
    List.sorted_insertionSort instLeDT (dedupKeep l)
  have hperm : List.Perm (sortedSet l) (dedupKeep l) :=
    List.perm_insertionSort instLeDT (dedupKeep l)
  have hne : (sortedSet l).Pairwise (fun a b => toInstant a ≠ toInstant b) :=
    (List.Perm.pairwise_iff (fun h => Ne.symm h) hperm).2 (dedupKeep_pairwise l)
  exact (hsorted.and hne).imp (fun h => lt_of_le_of_ne h.1 h.2)

theorem buildEventsFrom_sorted (cpi nfp fomc gdp pio : List DateTime) :
    (buildEventsFrom cpi nfp fomc gdp pio).Pairwise eventLe :=
  List.sorted_insertionSort eventLe _

/-! ### Error-shape lemmas for the extractors -/

theorem toTaipeiText_error (t : Str) (e : Str)
    (h : toTaipeiText t = Except.error e) : e = strptimeErr := by
  unfold toTaipeiText at h
  split at h
  · exact Except.noConfusion h
  · split at h
    · exact (Except.error.inj h).symm
    · exact Except.noConfusion h

theorem rowStep_error (cols : List Str) (e : Str)
    (h : rowStep cols = Except.error e) : e = strptimeErr := by
  unfold rowStep at h
  split at h
  · exact Except.noConfusion h
  · split at h
    all_goals
      first
      | exact Except.noConfusion h
      | (rename_i heq
         rw [Except.error.inj h] at heq
         exact toTaipeiText_error _ _ heq)
      | (split at h
         all_goals
           first
           | exact Except.noConfusion h
           | (rename_i heq2
              rw [Except.error.inj h] at heq2
              exact toTaipeiText_error _ _ heq2))

theorem blsLoop_error :
    ∀ (rows : List (List Str)) (st : List DateTime × List DateTime × List Str)
      (e : Str), blsLoop rows st = Except.error e → e = strptimeErr := by
  intro rows
  induction rows with
  | nil =>
    intro st e h
    obtain ⟨cpi, nfp, samples⟩ := st
    exact Except.noConfusion h
  | cons tr rest ih =>
    intro st e h
    obtain ⟨cpi, nfp, samples⟩ := st
    rw [blsLoop] at h
    split at h
    all_goals
      first
      | exact ih _ e h
      | (rename_i heq
         rw [Except.error.inj h] at heq
         exact rowStep_error _ _ heq)

/-! ## Claim theorems -/

/-- Claim C10: the ICS text escaper leaves no raw carriage return or line
feed in its output, and it is idempotent: applying it twice equals
applying it once. -/
theorem claim_C10 : ∀ s : Str,
    ('\r' ∉ escapeIcsText s ∧ '\n' ∉ escapeIcsText s) ∧
    escapeIcsText (escapeIcsText s) = escapeIcsText s :=
  fun s =>
    ⟨escape_no_cr_lf s,
     escape_of_clean _ (escape_no_cr_lf s).1 (escape_no_cr_lf s).2⟩

/-- Claim C6: attaching 08:30 America/New_York to any valid 2026 date and
converting to Asia/Taipei preserves the absolute instant and yields 20:30
the same day inside the US DST window, 21:30 the same day outside it. -/
theorem claim_C6 : ∀ m < 13, ∀ d < 32, 1 ≤ m → 1 ≤ d → d ≤ daysInMonth 2026 m →
    (inDstWindow2026 m d →
      nyToTaipei 2026 m d 8 30 = ⟨2026, m, d, 20, 30, 0, 480⟩) ∧
    (¬ inDstWindow2026 m d →
      nyToTaipei 2026 m d 8 30 = ⟨2026, m, d, 21, 30, 0, 480⟩) ∧
    toInstant (nyToTaipei 2026 m d 8 30) =
      toInstant ⟨2026, m, d, 8, 30, 0, -(nyWestOffsetMin 2026 m d 8 30 : Int)⟩ := by
  have h : ∀ m < 13, ∀ d < 32, C6At m d := by decide
  intro m hm d hd
  exact h m hm d hd

/-- Concrete instances of C6: 2026-06-17 is inside the DST window and
lands on 20:30 Taipei the same day; 2026-01-14 is outside and lands on
21:30. -/
theorem claim_C6_witness :
    nyToTaipei 2026 6 17 8 30 = ⟨2026, 6, 17, 20, 30, 0, 480⟩ ∧
    nyToTaipei 2026 1 14 8 30 = ⟨2026, 1, 14, 21, 30, 0, 480⟩ :=
  ⟨(claim_C6 6 (by decide) 17 (by decide) (by decide) (by decide) (by decide)).1
      (by decide),
   (claim_C6 1 (by decide) 14 (by decide) (by decide) (by decide) (by decide)).2.1
      (by decide)⟩

/-- Claim C9: the FOMC generator errors exactly on years other than 2026,
and for 2026 returns one Taipei instant per hardcoded date. -/
theorem claim_C9 : ∀ y : Nat,
    (y ≠ 2026 → fomcStatementTimesTp y = Except.error fomcGuardMsg) ∧
    (y = 2026 → fomcStatementTimesTp y = Except.ok fomcTimes2026 ∧
      fomcTimes2026.length = FOMC_STATEMENT_DATES_2026.length ∧
      FOMC_STATEMENT_DATES_2026.length = 8) := by
  intro y
  constructor
  · intro h
    simp [fomcStatementTimesTp, h]
  · intro h
    subst h
    exact ⟨by simp [fomcStatementTimesTp], by decide, by decide⟩

/-- Concrete instances of C9: 2025 is rejected, 2026 returns the 8
instants. -/
theorem claim_C9_witness :
    fomcStatementTimesTp 2025 = Except.error fomcGuardMsg ∧
    fomcStatementTimesTp 2026 = Except.ok fomcTimes2026 ∧
    fomcTimes2026.length = 8 :=
  ⟨(claim_C9 2025).1 (by decide),
   ((claim_C9 2026).2 rfl).1,
   by decide⟩

/-- Claim C8: the event collection built from the five category lists is
sorted non-decreasing by start instant, both for the list builder itself
and for the full pipeline result. -/
theorem claim_C8 :
    (∀ cpi nfp fomc gdp pio : List DateTime,
      (buildEventsFrom cpi nfp fomc gdp pio).Pairwise eventLe) ∧
    (∀ rows data evs, buildEventsPipeline rows data = Except.ok evs →
      evs.Pairwise eventLe) := by
  constructor
  · exact buildEventsFrom_sorted
  · intro rows data evs h
    unfold buildEventsPipeline at h
    rcases hbls : fetchBlsCpiAndNfp rows with e | ⟨cpi, nfp⟩ <;> rw [hbls] at h
    · exact absurd h (by simp)
    · rcases hfomc : fomcStatementTimesTp YEAR with e | fomc <;> rw [hfomc] at h
      · exact absurd h (by simp)
      · rcases hbea : fetchBeaGdpAndPio data YEAR with e | ⟨gdp, pio⟩ <;>
          rw [hbea] at h
        · exact absurd h (by simp)
        · have : buildEventsFrom cpi nfp fomc gdp pio = evs := by
            exact Except.ok.inj h
          rw [← this]
          exact buildEventsFrom_sorted cpi nfp fomc gdp pio

/-- Concrete instance of C8: the pipeline on the fixtures yields a list
sorted by start instant. -/
theorem claim_C8_witness :
    ∃ evs, buildEventsPipeline rowsFix beaFix = Except.ok evs ∧
      evs.Pairwise eventLe := by
  refine ⟨buildEventsFrom
    [nyToTaipei 2026 1 14 8 30] [nyToTaipei 2026 2 6 8 30] fomcTimes2026
    [astimezoneTaipei ⟨2026, 1, 29, 8, 30, 0, -300⟩]
    [astimezoneTaipei ⟨2026, 2, 27, 8, 30, 0, -300⟩], ?_, ?_⟩
  · decide
  · exact claim_C8.2 rowsFix beaFix _ (by decide)

/-- Claim C4: every category list is strictly ascending by instant before
events are built: the two BLS lists on any successful extraction, every
BEA category list, and the hardcoded FOMC list. -/
theorem claim_C4 :
    (∀ rows cpi nfp, fetchBlsCpiAndNfp rows = Except.ok (cpi, nfp) →
      strictAscending cpi ∧ strictAscending nfp) ∧
    (∀ data key year, strictAscending (parseDatesBea data key year)) ∧
    strictAscending fomcTimes2026 := by
  refine ⟨?_, ?_, ?_⟩
  · intro rows cpi nfp h
    unfold fetchBlsCpiAndNfp at h
    split at h
    · exact Except.noConfusion h
    · split at h
      · exact Except.noConfusion h
      · split at h
        · exact Except.noConfusion h
        · split at h
          · exact Except.noConfusion h
          · have hinj := Except.ok.inj h
            have h1 : sortedSet _ = cpi := congrArg Prod.fst hinj
            have h2 : sortedSet _ = nfp := congrArg Prod.snd hinj
            exact ⟨h1 ▸ sortedSet_strict _, h2 ▸ sortedSet_strict _⟩
  · intro data key year
    exact sortedSet_strict _
  · decide

/-- Concrete instance of C4: the fixture extraction succeeds and both
returned lists are strictly ascending. -/
theorem claim_C4_witness :
    strictAscending [nyToTaipei 2026 1 14 8 30] ∧
    strictAscending [nyToTaipei 2026 2 6 8 30] :=
  claim_C4.1 rowsFix [nyToTaipei 2026 1 14 8 30] [nyToTaipei 2026 2 6 8 30]
    (by decide)

/-- Claim C7 (amended): the per-row behaviour of the BLS extractor,
including the propagation of `strptime` errors when the date pattern
matches but is not a real date. -/
theorem claim_C7 : ∀ cols : List Str,
    (cols.length < 2 → rowStep cols = Except.ok none) ∧
    (2 ≤ cols.length →
      (∀ dt, toTaipeiText (cols.getD 0 []) = Except.ok (some dt) →
        rowStep cols = Except.ok (some (dt, cols.getD 1 []))) ∧
      (toTaipeiText (cols.getD 0 []) = Except.ok none →
        (∀ dt, toTaipeiText (joinSpace (cols.drop 1)) = Except.ok (some dt) →
          rowStep cols = Except.ok (some (dt, cols.getD 0 []))) ∧
        (toTaipeiText (joinSpace (cols.drop 1)) = Except.ok none →
          rowStep cols = Except.ok none) ∧
        (∀ e, toTaipeiText (joinSpace (cols.drop 1)) = Except.error e →
          rowStep cols = Except.error e)) ∧
      (∀ e, toTaipeiText (cols.getD 0 []) = Except.error e →
        rowStep cols = Except.error e)) := by
  intro cols
  constructor
  · intro h
    unfold rowStep
    rw [if_pos h]
  · intro hlen
    refine ⟨?_, ?_, ?_⟩
    · intro dt h
      unfold rowStep
      rw [if_neg (by omega), h]
    · intro h1
      refine ⟨?_, ?_, ?_⟩
      · intro dt h2
        unfold rowStep
        rw [if_neg (by omega), h1, h2]
      · intro h2
        unfold rowStep
        rw [if_neg (by omega), h1, h2]
      · intro e h2
        unfold rowStep
        rw [if_neg (by omega), h1, h2]
    · intro e h
      unfold rowStep
      rw [if_neg (by omega), h]

/-- The claim's case analysis is incomplete: on a row whose first column
matches the date pattern with a non-month word, the extractor neither
skips the row nor retries — the `ValueError` from `strptime` propagates. -/
theorem claim_C7_counterexample :
    rowStep cexRow = Except.error strptimeErr ∧
    ¬ rowStep cexRow = Except.ok none := by
  constructor
  · decide
  · decide

/-- Concrete instance of C7: a well-formed (date, title) row is parsed
with the second column as the release title. -/
theorem claim_C7_witness :
    rowStep [cs "January 14, 2026", cs "Consumer Price Index"] =
      Except.ok (some (nyToTaipei 2026 1 14 8 30, cs "Consumer Price Index")) :=
  ((claim_C7 [cs "January 14, 2026", cs "Consumer Price Index"]).2
    (by decide)).1 (nyToTaipei 2026 1 14 8 30) (by decide)

/-- Claim C5 (amended): both extractors fail terminally rather than
returning an empty category; the BLS empty-category messages embed the
sample of observed release titles; the BEA messages are fixed texts (keys
case) or fixed sentences (empty case) without a sample of observed keys. -/
theorem claim_C5 : ∀ (rows : List (List Str)) (data : Jval) (year : Nat),
    (∀ p, fetchBlsCpiAndNfp rows = Except.ok p → p.1 ≠ [] ∧ p.2 ≠ []) ∧
    (∀ e, fetchBlsCpiAndNfp rows = Except.error e →
      e = blsNoTableMsg ∨ e = strptimeErr ∨
      (∃ cpi0 nfp0 samples,
        blsLoop rows ([], [], []) = Except.ok (cpi0, nfp0, samples) ∧
        (e = blsCpiEmptyMsg samples ∨ e = blsNfpEmptyMsg samples))) ∧
    (∀ p, fetchBeaGdpAndPio data year = Except.ok p → p.1 ≠ [] ∧ p.2 ≠ []) ∧
    (∀ e, fetchBeaGdpAndPio data year = Except.error e →
      e = beaNonDictMsg ∨ e = beaGdpEmptyMsg ∨ e = beaPioEmptyMsg ∨
      ∃ g p, e = beaKeysMsg g p) := by
  intro rows data year
  refine ⟨?_, ?_, ?_, ?_⟩
  · intro p h
    unfold fetchBlsCpiAndNfp at h
    split at h
    · exact Except.noConfusion h
    · split at h
      · exact Except.noConfusion h
      · split at h
        · exact Except.noConfusion h
        · split at h
          · exact Except.noConfusion h
          · rename_i hcpi hnfp
            have hinj := Except.ok.inj h
            rw [← hinj]
            constructor
            · intro hnil
              have hnil2 : sortedSet _ = [] := hnil
              exact hcpi (by rw [hnil2]; rfl)
            · intro hnil
              have hnil2 : sortedSet _ = [] := hnil
              exact hnfp (by rw [hnil2]; rfl)
  · intro e h
    unfold fetchBlsCpiAndNfp at h
    split at h
    · exact Or.inl (Except.error.inj h).symm
    · split at h
      · rename_i heq
        rw [Except.error.inj h] at heq
        exact Or.inr (Or.inl (blsLoop_error _ _ _ heq))
      · rename_i st heq
        split at h
        · refine Or.inr (Or.inr ⟨_, _, _, heq, Or.inl (Except.error.inj h).symm⟩)
        · split at h
          · refine Or.inr (Or.inr ⟨_, _, _, heq, Or.inr (Except.error.inj h).symm⟩)
          · exact Except.noConfusion h
  · intro p h
    unfold fetchBeaGdpAndPio at h
    split at h
    · split at h
      · exact Except.noConfusion h
      · split at h
        · split at h
          · exact Except.noConfusion h
          · split at h
            · exact Except.noConfusion h
            · rename_i hgdp hpio
              have hinj := Except.ok.inj h
              rw [← hinj]
              constructor
              · intro hnil
                have hnil2 : parseDatesBea _ _ _ = [] := hnil
                exact hgdp (by rw [hnil2]; rfl)
              · intro hnil
                have hnil2 : parseDatesBea _ _ _ = [] := hnil
                exact hpio (by rw [hnil2]; rfl)
        · exact Except.noConfusion h
    · exact Except.noConfusion h
  · intro e h
    unfold fetchBeaGdpAndPio at h
    split at h
    · split at h
      · exact Or.inl (Except.error.inj h).symm
      · split at h
        · split at h
          · exact Or.inr (Or.inl (Except.error.inj h).symm)
          · split at h
            · exact Or.inr (Or.inr (Or.inl (Except.error.inj h).symm))
            · exact Except.noConfusion h
        · exact Or.inr (Or.inr (Or.inr ⟨_, _, (Except.error.inj h).symm⟩))
    · exact Or.inl (Except.error.inj h).symm

/-- The claim as stated is false for the BEA extractor: on a document
whose only key is "Foo", the keys-not-found error does not contain the
observed key (neither raw nor normalized). -/
theorem claim_C5_counterexample :
    fetchBeaGdpAndPio beaCexData 2026 =
      Except.error (beaKeysMsg none none) ∧
    containsSub (cs "Foo") (beaKeysMsg none none) = false ∧
    containsSub (cs "foo") (beaKeysMsg none none) = false := by
  refine ⟨?_, ?_, ?_⟩ <;> decide

/-- Concrete instance of C5: the fixture extraction succeeds with two
non-empty lists, and the empty-rows case produces the no-table error. -/
theorem claim_C5_witness :
    (([nyToTaipei 2026 1 14 8 30], [nyToTaipei 2026 2 6 8 30]) :
        List DateTime × List DateTime).1 ≠ [] ∧
    (([nyToTaipei 2026 1 14 8 30], [nyToTaipei 2026 2 6 8 30]) :
        List DateTime × List DateTime).2 ≠ [] := by
  exact (claim_C5 rowsFix beaFix 2026).1
    ([nyToTaipei 2026 1 14 8 30], [nyToTaipei 2026 2 6 8 30]) (by decide)

/-! ### Masking lemmas for C3 -/

theorem maskDtstamp_stamp (r : Str) :
    maskDtstampLine (cs "DTSTAMP:" ++ r) = cs "DTSTAMP:MASKED" := by
  have h : leadsWith (cs "DTSTAMP:") (cs "DTSTAMP:" ++ r) = true := rfl
  simp [maskDtstampLine, h]

theorem mask_eventLines (ev : Event) (now1 now2 : DateTime) :
    (eventToIcsLines ev now1).map maskDtstampLine =
      (eventToIcsLines ev now2).map maskDtstampLine := by
  unfold eventToIcsLines
  simp only [List.map_append, List.map_cons, List.map_nil]
  rw [maskDtstamp_stamp (fmtUtcStamp now1), maskDtstamp_stamp (fmtUtcStamp now2)]

theorem mask_docLines (evs : List Event) (now1 now2 : DateTime) :
    (icsDocLines evs now1).map maskDtstampLine =
      (icsDocLines evs now2).map maskDtstampLine := by
  have hmid : ∀ l : List Event,
      (l.flatMap (fun ev => eventToIcsLines ev now1)).map maskDtstampLine =
        (l.flatMap (fun ev => eventToIcsLines ev now2)).map maskDtstampLine := by
    intro l
    induction l with
    | nil => rfl
    | cons e es ih =>
      simp only [List.flatMap_cons, List.map_append, ih,
        mask_eventLines e now1 now2]
  unfold icsDocLines
  simp only [List.map_append, hmid evs]

/-- Claim C3: with the extracted source data fixed, the generated
document depends on the clock only through the DTSTAMP fields: masking
those fields yields byte-identical documents, and fixing the clock yields
byte-identical documents outright. -/
theorem claim_C3 : ∀ (cpi nfp fomc gdp pio : List DateTime)
    (now1 now2 : DateTime),
    maskedRender (buildEventsFrom cpi nfp fomc gdp pio) now1 =
      maskedRender (buildEventsFrom cpi nfp fomc gdp pio) now2 ∧
    (now1 = now2 →
      buildIcs (buildEventsFrom cpi nfp fomc gdp pio) now1 =
        buildIcs (buildEventsFrom cpi nfp fomc gdp pio) now2) := by
  intro cpi nfp fomc gdp pio now1 now2
  constructor
  · unfold maskedRender
    rw [mask_docLines]
  · intro h
    rw [h]

/-- Concrete instance of C3 at two different clock readings, plus the
fixed-clock case discharged at a concrete time. -/
theorem claim_C3_witness :
    maskedRender (buildEventsFrom [nyToTaipei 2026 1 14 8 30] [] fomcTimes2026 [] [])
        ⟨2026, 1, 1, 0, 0, 0, 0⟩ =
      maskedRender (buildEventsFrom [nyToTaipei 2026 1 14 8 30] [] fomcTimes2026 [] [])
        ⟨2027, 5, 4, 3, 2, 1, 0⟩ ∧
    buildIcs (buildEventsFrom [nyToTaipei 2026 1 14 8 30] [] fomcTimes2026 [] [])
        ⟨2026, 1, 1, 0, 0, 0, 0⟩ =
      buildIcs (buildEventsFrom [nyToTaipei 2026 1 14 8 30] [] fomcTimes2026 [] [])
        ⟨2026, 1, 1, 0, 0, 0, 0⟩ :=
  ⟨(claim_C3 [nyToTaipei 2026 1 14 8 30] [] fomcTimes2026 [] []
      ⟨2026, 1, 1, 0, 0, 0, 0⟩ ⟨2027, 5, 4, 3, 2, 1, 0⟩).1,
   (claim_C3 [nyToTaipei 2026 1 14 8 30] [] fomcTimes2026 [] []
      ⟨2026, 1, 1, 0, 0, 0, 0⟩ ⟨2026, 1, 1, 0, 0, 0, 0⟩).2 rfl⟩

/-! ### Physical-lines lemmas for C1 -/

theorem joinList_append (sep : Str) (A B : List Str) (hA : A ≠ []) (hB : B ≠ []) :
    joinList sep (A ++ B) = joinList sep A ++ sep ++ joinList sep B := by
  induction A with
  | nil => exact absurd rfl hA
  | cons x xs ih =>
    cases hxs : xs with
    | nil =>
      cases B with
      | nil => exact absurd rfl hB
      | cons y ys => simp [joinList]
    | cons x2 xs2 =>
      have ihh := ih (by simp [hxs])
      subst hxs
      simp only [List.cons_append, joinList, List.append_eq] at ihh ⊢
      rw [ihh]
      simp [List.append_assoc]

theorem joinList_fold (L : List Str) :
    joinList (cs "\r\n") (L.map foldIcsLine) =
      joinList (cs "\r\n") (L.flatMap foldChunks) := by
  induction L with
  | nil => rfl
  | cons x xs ih =>
    cases xs with
    | nil =>
      simp only [List.map_cons, List.map_nil, List.flatMap_cons,
        List.flatMap_nil, List.append_nil]
      rfl
    | cons y ys =>
      have hB : foldChunks y ++ ys.flatMap foldChunks ≠ [] := by
        simp only [ne_eq, List.append_eq_nil]
        exact fun h => foldChunks_ne_nil y h.1
      simp only [List.map_cons, List.flatMap_cons] at ih ⊢
      rw [show joinList (cs "\r\n")
            (foldIcsLine x :: foldIcsLine y :: List.map foldIcsLine ys) =
          foldIcsLine x ++ cs "\r\n" ++
            joinList (cs "\r\n") (foldIcsLine y :: List.map foldIcsLine ys)
          from rfl]
      rw [ih,
        joinList_append (cs "\r\n") (foldChunks x)
          (foldChunks y ++ ys.flatMap foldChunks) (foldChunks_ne_nil x) hB]
      rfl

theorem buildIcs_physLines (events : List Event) (now : DateTime) :
    buildIcs events now =
      joinList (cs "\r\n") (docPhysLines events now) ++ cs "\r\n" := by
  unfold buildIcs docPhysLines
  rw [joinList_fold]

/-- Claim C1 (amended): the folding bound of `_fold_ics_line` is 75
characters (code points), not 75 octets: every physical line of the
document holds at most 75 characters, every folded continuation begins
with the single inserted space, and unfolding (deleting every
CRLF-plus-space) reconstructs any CR-free logical line exactly; the
document text is the CRLF-join of exactly these physical lines. -/
theorem claim_C1 : ∀ line : Str,
    (∀ c ∈ foldChunks line, c.length ≤ 75) ∧
    (∀ c ∈ (foldChunks line).tail, leadsWith [' '] c = true) ∧
    ('\r' ∉ line → removeFolds (foldIcsLine line) = line) ∧
    (∀ (events : List Event) (now : DateTime),
      buildIcs events now =
        joinList (cs "\r\n") (docPhysLines events now) ++ cs "\r\n" ∧
      ∀ l ∈ docPhysLines events now, l.length ≤ 75) := by
  intro line
  refine ⟨foldChunks_length_le line, foldChunks_tail_space line,
    removeFolds_foldIcsLine line, ?_⟩
  intro events now
  refine ⟨buildIcs_physLines events now, ?_⟩
  intro l hl
  unfold docPhysLines at hl
  rcases List.mem_flatMap.1 hl with ⟨src, _, hsrc⟩
  exact foldChunks_length_le src l hsrc

/-- Concrete instance of C1: an over-long line folds into ≤75-character
chunks whose continuations start with a space, and unfolds back. -/
theorem claim_C1_witness :
    (∀ c ∈ foldChunks (List.replicate 100 'a'), c.length ≤ 75) ∧
    (∀ c ∈ (foldChunks (List.replicate 100 'a')).tail,
      leadsWith [' '] c = true) ∧
    removeFolds (foldIcsLine (List.replicate 100 'a')) =
      List.replicate 100 'a' :=
  ⟨(claim_C1 (List.replicate 100 'a')).1,
   (claim_C1 (List.replicate 100 'a')).2.1,
   (claim_C1 (List.replicate 100 'a')).2.2.1 (by decide)⟩

/-- The claim as stated (75 octets) is false: the CPI event's rendered
DESCRIPTION line stays on one physical line (50 characters ≤ 75) yet its
UTF-8 encoding is 78 octets. -/
theorem claim_C1_counterexample :
    ¬ (∀ l ∈ docPhysLines [c1CexEvent] c1Now, utf8ByteLen l ≤ 75) := by
  decide

/-! ### Digest-bound and hex lemmas for C2 -/

theorem processBlock_bound (h : Nat × Nat × Nat × Nat × Nat) (b : List Nat) :
    (processBlock h b).1 < M32 ∧ (processBlock h b).2.1 < M32 ∧
    (processBlock h b).2.2.1 < M32 ∧ (processBlock h b).2.2.2.1 < M32 ∧
    (processBlock h b).2.2.2.2 < M32 := by
  refine ⟨?_, ?_, ?_, ?_, ?_⟩ <;> exact Nat.mod_lt _ (by decide)

theorem foldl_processBlock_bound :
    ∀ (blocks : List (List Nat)) (h : Nat × Nat × Nat × Nat × Nat),
      h.1 < M32 → h.2.1 < M32 → h.2.2.1 < M32 → h.2.2.2.1 < M32 →
      h.2.2.2.2 < M32 →
      (blocks.foldl processBlock h).1 < M32 ∧
      (blocks.foldl processBlock h).2.1 < M32 ∧
      (blocks.foldl processBlock h).2.2.1 < M32 ∧
      (blocks.foldl processBlock h).2.2.2.1 < M32 ∧
      (blocks.foldl processBlock h).2.2.2.2 < M32 := by
  intro blocks
  induction blocks with
  | nil =>
    intro h h1 h2 h3 h4 h5
    exact ⟨h1, h2, h3, h4, h5⟩
  | cons b rest ih =>
    intro h h1 h2 h3 h4 h5
    rw [List.foldl_cons]
    obtain ⟨g1, g2, g3, g4, g5⟩ := processBlock_bound h b
    exact ih _ g1 g2 g3 g4 g5

theorem sha1Digest_lt (msg : List Nat) : sha1Digest msg < 16 ^ 40 := by
  obtain ⟨h1, h2, h3, h4, h5⟩ :=
    foldl_processBlock_bound (chunks64 (sha1Pad msg)) sha1Init
      (by decide) (by decide) (by decide) (by decide) (by decide)
  unfold sha1Digest sha1H
  have h16 : (16 : Nat) ^ 40 = 1461501637330902918203684832716283019655932542976 := by
    norm_num
  rw [h16]
  unfold M32 at h1 h2 h3 h4 h5 ⊢
  omega

theorem toHexPad_length (k : Nat) : ∀ n, (toHexPad k n).length = k := by
  induction k with
  | zero => intro n; rfl
  | succ m ih =>
    intro n
    rw [toHexPad]
    simp [ih]

theorem toHexPad_split (k1 k2 : Nat) :
    ∀ n, toHexPad (k1 + k2) n =
      toHexPad k1 (n / 16 ^ k2) ++ toHexPad k2 (n % 16 ^ k2) := by
  induction k2 with
  | zero =>
    intro n
    simp [toHexPad]
  | succ m ih =>
    intro n
    rw [show k1 + (m + 1) = (k1 + m) + 1 from rfl, toHexPad, ih (n / 16)]
    rw [toHexPad]
    have e1 : n / 16 / 16 ^ m = n / 16 ^ (m + 1) := by
      rw [Nat.div_div_eq_div_mul, pow_succ]
      ring_nf
    have e2 : n % 16 ^ (m + 1) % 16 = n % 16 := by
      exact Nat.mod_mod_of_dvd n (dvd_pow_self 16 (by omega))
    have e3 : n % 16 ^ (m + 1) / 16 = n / 16 % 16 ^ m := by
      have : (16 : Nat) ^ (m + 1) = 16 * 16 ^ m := by
        rw [pow_succ]
        ring
      rw [this]
      exact Nat.mod_mul_right_div_self n 16 (16 ^ m)
    rw [e1, e2, e3, List.append_assoc]

theorem hexChar_inj : ∀ a < 16, ∀ b < 16, hexChar a = hexChar b → a = b := by
  decide

theorem toHexPad_inj (k : Nat) :
    ∀ m n, m < 16 ^ k → n < 16 ^ k → toHexPad k m = toHexPad k n → m = n := by
  induction k with
  | zero =>
    intro m n hm hn _
    simp only [pow_zero, Nat.lt_one_iff] at hm hn
    omega
  | succ j ih =>
    intro m n hm hn h
    rw [toHexPad, toHexPad] at h
    have hlen : (toHexPad j (m / 16)).length = (toHexPad j (n / 16)).length := by
      rw [toHexPad_length, toHexPad_length]
    obtain ⟨hpre, hsuf⟩ := List.append_inj h hlen
    have hc : hexChar (m % 16) = hexChar (n % 16) := by
      simpa using hsuf
    have hmod : m % 16 = n % 16 :=
      hexChar_inj (m % 16) (Nat.mod_lt _ (by omega)) (n % 16)
        (Nat.mod_lt _ (by omega)) hc
    have hdiv : m / 16 = n / 16 := by
      apply ih
      · exact (Nat.div_lt_iff_lt_mul (by omega : (0 : Nat) < 16)).2
          (by rw [← pow_succ]; exact hm)
      · exact (Nat.div_lt_iff_lt_mul (by omega : (0 : Nat) < 16)).2
          (by rw [← pow_succ]; exact hn)
      · exact hpre
    omega

theorem truncKey_lt (s : Str) (t : DateTime) : truncKey s t < 16 ^ 20 := by
  unfold truncKey
  have h := sha1Digest_lt (utf8Encode (uidBase s t))
  refine (Nat.div_lt_iff_lt_mul (by positivity)).2 ?_
  rw [← pow_add]
  exact h

theorem stableUid_template (s : Str) (t : DateTime) :
    stableUid s t =
      cs "fin-" ++ toHexPad 20 (truncKey s t) ++ cs "@zeuscheng.github.io" := by
  have hx : (toHexPad 40 (sha1Digest (utf8Encode (uidBase s t)))).take 20 =
      toHexPad 20 (sha1Digest (utf8Encode (uidBase s t)) / 16 ^ 20) := by
    rw [show (40 : Nat) = 20 + 20 from rfl, toHexPad_split 20 20,
      List.take_left' (toHexPad_length 20 _)]
  unfold stableUid truncKey
  rw [hx]

theorem stableUid_eq_iff (s1 : Str) (t1 : DateTime) (s2 : Str) (t2 : DateTime) :
    stableUid s1 t1 = stableUid s2 t2 ↔ truncKey s1 t1 = truncKey s2 t2 := by
  constructor
  · intro h
    rw [stableUid_template, stableUid_template] at h
    have hx : toHexPad 20 (truncKey s1 t1) = toHexPad 20 (truncKey s2 t2) :=
      List.append_cancel_left (List.append_cancel_right h)
    exact toHexPad_inj 20 _ _ (truncKey_lt s1 t1) (truncKey_lt s2 t2) hx
  · intro h
    rw [stableUid_template, stableUid_template, h]

/-- Claim C2 (amended): the identifier reads only the title and start of
an event (same `(title, start)` gives the same identifier whatever the
duration, description or categories; the serializer's UID field is
exactly this function of those two fields), and two identifiers coincide
exactly when the 80-bit truncated SHA-1 digests of the `(title, start)`
encodings coincide — so distinct `(title, start)` pairs get distinct
identifiers unless their truncated digests collide, which pigeonhole
makes unavoidable in general. -/
theorem claim_C2 :
    (∀ (s : Str) (t : DateTime) (dur1 dur2 : Nat) (d1 d2 : Str)
        (c1 c2 : List Str),
      stableUid (Event.mk s t dur1 d1 c1).summary
          (Event.mk s t dur1 d1 c1).start_tp =
        stableUid (Event.mk s t dur2 d2 c2).summary
          (Event.mk s t dur2 d2 c2).start_tp) ∧
    (∀ (ev : Event) (now : DateTime),
      (eventToIcsLines ev now).getD 1 [] =
        cs "UID:" ++ stableUid ev.summary ev.start_tp) ∧
    (∀ (s1 : Str) (t1 : DateTime) (s2 : Str) (t2 : DateTime),
      stableUid s1 t1 = stableUid s2 t2 ↔ truncKey s1 t1 = truncKey s2 t2) := by
  refine ⟨?_, ?_, ?_⟩
  · intro s t _ _ _ _ _ _
    rfl
  · intro ev now
    rfl
  · exact stableUid_eq_iff

/-- The claim's injectivity conjunct is false: the identifier keeps only
80 bits of the digest, so by pigeonhole over the infinitely many titles
two distinct titles with the same start instant share an identifier. -/
theorem claim_C2_counterexample :
    ¬ (∀ (s1 s2 : Str) (t : DateTime), s1 ≠ s2 →
        stableUid s1 t ≠ stableUid s2 t) := by
  intro hall
  obtain ⟨a, b, hne, heq⟩ :=
    Finite.exists_ne_map_eq_of_infinite
      (fun s : Str =>
        (⟨truncKey s ⟨2026, 1, 1, 0, 0, 0, 480⟩,
          truncKey_lt s ⟨2026, 1, 1, 0, 0, 0, 480⟩⟩ : Fin (16 ^ 20)))
  exact hall a b ⟨2026, 1, 1, 0, 0, 0, 480⟩ hne
    ((stableUid_eq_iff a ⟨2026, 1, 1, 0, 0, 0, 480⟩ b
        ⟨2026, 1, 1, 0, 0, 0, 480⟩).2 (congrArg Fin.val heq))

end MacroCal
